import Mathlib

/-!
Shallow embedding of the stacks translation-and-reconciliation engine:
the stack label filter, the per-kind resource joins, the status
aggregation, and the spec-conversion pipeline, together with theorems
settling the claims about them.

Modelling conventions:
* Go maps with string keys are association lists when stored in data
  (labels, resource inventories, per-service statuses) and functions
  into Option when used as the request-scoped join tables.
* Go multi-return (value, error) is Except; a Go runtime panic is the
  distinguished failure Failure.goPanic, a returned non-nil error is
  Failure.goError.  When a function returns a value alongside a non-nil
  error that callers then discard, only the error is kept.
* External collaborators (the orchestrator resource backend and the
  compose conversion stage functions) are explicit function parameters,
  as the source only ever invokes them through interfaces.
-/

/-- Association-list lookup, modelling a read from a Go map with string keys. -/
def mapLookup {α : Type} : List (String × α) → String → Option α
  | [], _ => none
  | (k, v) :: rest, key => if k = key then some v else mapLookup rest key

/-- Association-list insert-or-replace, modelling a write to a Go map with
string keys. -/
def mapInsert {α : Type} : List (String × α) → String → α → List (String × α)
  | [], key, v => [(key, v)]
  | (k, v0) :: rest, key, v =>
    if k = key then (key, v) :: rest else (k, v0) :: mapInsert rest key v

/-- A Go map of labels from string to string. -/
abbrev Labels := List (String × String)

namespace filters

/-- docker filters.Args, modelled as the list of (field, value) argument pairs. -/
abbrev Args := List (String × String)

/-- docker filters.Arg builds one (field, value) argument pair. -/
def Arg (field value : String) : String × String := (field, value)

/-- docker filters.NewArgs applied to a list of argument pairs. -/
def NewArgs (args : List (String × String)) : Args := args

end filters

/-- Modelled from the spec: the single well-known stack-label key.  Its
defining declaration lives outside the provided sources; every claim depends
only on it being one fixed key, never on its exact value. -/
def StackLabel : String := "com.docker.stacks.stack_id"

/-- interfaces.StackLabelFilter: a filter on the stack label being equal to
the stack ID, or an unconstrained filter when the ID is empty. -/
def StackLabelFilter (stackID : String) : filters.Args :=
  if stackID = "" then filters.NewArgs []
  else filters.NewArgs [filters.Arg "label" (StackLabel ++ "=" ++ stackID)]

namespace swarm

/-- swarm.TaskStatus, restricted to the one field the source reads. -/
structure TaskStatus where
  State : String
deriving DecidableEq

/-- The docker swarm task state constant for a running task. -/
def TaskStateRunning : String := "running"

/-- swarm.Task, restricted to the fields the source reads. -/
structure Task where
  ServiceID : String
  Status : TaskStatus
  Labels : Labels
deriving DecidableEq

/-- swarm.Annotations: a name plus labels. -/
structure Annotations where
  Name : String
  Labels : Labels
deriving DecidableEq

/-- swarm.ReplicatedService; the Replicas pointer may be nil (none). -/
structure ReplicatedService where
  Replicas : Option Nat
deriving DecidableEq

/-- swarm.ServiceMode; a nil Replicated pointer (none) means global mode. -/
structure ServiceMode where
  Replicated : Option ReplicatedService
deriving DecidableEq

/-- swarm.ServiceSpec, restricted to the fields the source reads. -/
structure ServiceSpec where
  Annotations : Annotations
  Mode : ServiceMode
deriving DecidableEq

/-- swarm.ServiceSpec embeds Annotations, so Spec.Name reads the embedded name. -/
def ServiceSpec.Name (s : ServiceSpec) : String := s.Annotations.Name

/-- swarm.Service, restricted to the fields the source reads. -/
structure Service where
  ID : String
  Spec : ServiceSpec
deriving DecidableEq

/-- swarm.SecretSpec, restricted to the fields the source reads. -/
structure SecretSpec where
  Annotations : Annotations
deriving DecidableEq

/-- swarm.SecretSpec embeds Annotations, so Spec.Name reads the embedded name. -/
def SecretSpec.Name (s : SecretSpec) : String := s.Annotations.Name

/-- swarm.Secret, restricted to the fields the source reads. -/
structure Secret where
  ID : String
  Spec : SecretSpec
deriving DecidableEq

/-- swarm.ConfigSpec, restricted to the fields the source reads. -/
structure ConfigSpec where
  Annotations : Annotations
deriving DecidableEq

/-- swarm.ConfigSpec embeds Annotations, so Spec.Name reads the embedded name. -/
def ConfigSpec.Name (s : ConfigSpec) : String := s.Annotations.Name

/-- swarm.Config, restricted to the fields the source reads. -/
structure Config where
  ID : String
  Spec : ConfigSpec
deriving DecidableEq

/-- swarm.Node; only the count of nodes is ever used. -/
structure Node where
  ID : String
deriving DecidableEq

end swarm

/-- types.ServiceStatus: current and desired task counts for one service. -/
structure ServiceStatus where
  CurrentTasks : Nat
  DesiredTasks : Nat
deriving DecidableEq

/-- types.StackResource: orchestrator ID and kind of one owned resource. -/
structure StackResource where
  ID : String
  Kind : String
deriving DecidableEq

/-- Modelled from the spec: resource kind tags from the external types
package; their exact string values are immaterial to every claim. -/
def KindSwarmService : String := "SwarmService"

/-- Kind tag for secrets; see KindSwarmService. -/
def KindSwarmSecret : String := "SwarmSecret"

/-- Kind tag for configs; see KindSwarmService. -/
def KindSwarmConfig : String := "SwarmConfig"

/-- types.StackResources: per-kind name-to-resource inventories. -/
structure StackResources where
  Services : List (String × StackResource)
  Secrets : List (String × StackResource)
  Configs : List (String × StackResource)
deriving DecidableEq

/-- types.StackStatus; the ServicesStatus Go map may be nil (none). -/
structure StackStatus where
  ServicesStatus : Option (List (String × ServiceStatus))
deriving DecidableEq

/-- types.Stack, restricted to the fields the modelled operations touch. -/
structure Stack where
  ID : String
  Status : StackStatus
  Resources : StackResources
deriving DecidableEq

/-- The Go zero value of types.Stack: empty ID, nil ServicesStatus map,
empty resource inventories. -/
def Stack.zero : Stack := ⟨"", ⟨none⟩, ⟨[], [], []⟩⟩

/-- A failed Go computation: either a returned non-nil error or a runtime
panic that unwinds the call. -/
inductive Failure where
  | goError : String → Failure
  | goPanic : String → Failure
deriving DecidableEq

/-- Whether an Except value is the ok case. -/
def exceptIsOk {ε α : Type} : Except ε α → Bool
  | Except.ok _ => true
  | Except.error _ => false

/-- Prepends context onto a returned error, as fmt.Errorf does; a panic is
never caught by an error check and passes through unchanged. -/
def wrapFailure (pre : String) : Failure → Failure
  | Failure.goError m => Failure.goError (pre ++ m)
  | Failure.goPanic m => Failure.goPanic m

/-- dockerTypes.TaskListOptions, restricted to the filter field. -/
structure TaskListOptions where
  Filters : filters.Args

/-- dockerTypes.ServiceListOptions, restricted to the filter field. -/
structure ServiceListOptions where
  Filters : filters.Args

/-- dockerTypes.SecretListOptions, restricted to the filter field. -/
structure SecretListOptions where
  Filters : filters.Args

/-- dockerTypes.ConfigListOptions, restricted to the filter field. -/
structure ConfigListOptions where
  Filters : filters.Args

/-- dockerTypes.NodeListOptions, restricted to the filter field. -/
structure NodeListOptions where
  Filters : filters.Args

/-- interfaces.SwarmResourceBackend: the orchestrator query interface the
backend consumes, one list operation per resource kind. -/
structure SwarmResourceBackend where
  GetTasks : TaskListOptions → Except String (List swarm.Task)
  GetServices : ServiceListOptions → Except String (List swarm.Service)
  GetSecrets : SecretListOptions → Except String (List swarm.Secret)
  GetConfigs : ConfigListOptions → Except String (List swarm.Config)
  GetNodes : NodeListOptions → Except String (List swarm.Node)

/-- backend.stackLabelFilters: equality filter for exactly one requested ID,
existence filter otherwise (including the empty sequence). -/
def stackLabelFilters (stackIDs : List String) : filters.Args :=
  match stackIDs with
  | [stackID] => StackLabelFilter stackID
  | _ => filters.NewArgs [filters.Arg "label" StackLabel]

/-- Pointwise update of a request-scoped join table, modelling the Go map
assignment idsmap[k] = v. -/
def mapSet {τ : Type} (m : String → Option (List τ)) (k : String) (v : List τ) :
    String → Option (List τ) :=
  fun s => if s = k then some v else m s

/-- The initialization loop of every join: for each requested stack ID, bind
it to an empty list, starting from a given table. -/
def initIDsMapFrom {τ : Type} (m : String → Option (List τ)) :
    List String → (String → Option (List τ))
  | [] => m
  | stackID :: rest => initIDsMapFrom (mapSet m stackID []) rest

/-- The join table holding exactly the requested stack IDs, each bound to an
empty list (Go: make plus the initialization loop over stackIDs). -/
def initIDsMap {τ : Type} (stackIDs : List String) : String → Option (List τ) :=
  initIDsMapFrom (fun _ => none) stackIDs

/-- The shared body of the four per-kind joins: for each raw resource, read
the stack label (failing the whole batch when it is absent) and append the
resource to the bucket of its stack when that stack was requested, silently
skipping it otherwise.  The source repeats this loop verbatim for tasks,
services, secrets and configs, differing only in the label projection and
the error message. -/
def joinByStackLoop {τ : Type} (labelsOf : τ → Labels) (errMsg : String)
    (idsmap : String → Option (List τ)) :
    List τ → Except Failure (String → Option (List τ))
  | [] => Except.ok idsmap
  | r :: rest =>
    match mapLookup (labelsOf r) StackLabel with
    | none => Except.error (Failure.goError errMsg)
    | some stackID =>
      match idsmap stackID with
      | some rs => joinByStackLoop labelsOf errMsg (mapSet idsmap stackID (rs ++ [r])) rest
      | none => joinByStackLoop labelsOf errMsg idsmap rest

/-- backend.getSwarmTasks (status-aggregation variant): queries tasks under
the stack label filter and joins them by stack ID. -/
def getSwarmTasks (b : SwarmResourceBackend) (stackIDs : List String) :
    Except Failure (String → Option (List swarm.Task)) :=
  match b.GetTasks ⟨stackLabelFilters stackIDs⟩ with
  | Except.error e => Except.error (Failure.goError ("unable to get tasks for stacks: " ++ e))
  | Except.ok tasks =>
    joinByStackLoop swarm.Task.Labels "internal error: found task with no stack label"
      (initIDsMap stackIDs) tasks

/-- backend.getSwarmServices: queries services under the stack label filter
and joins them by stack ID read from Spec.Annotations.Labels. -/
def getSwarmServices (b : SwarmResourceBackend) (stackIDs : List String) :
    Except Failure (String → Option (List swarm.Service)) :=
  match b.GetServices ⟨stackLabelFilters stackIDs⟩ with
  | Except.error e => Except.error (Failure.goError ("unable to list services: " ++ e))
  | Except.ok services =>
    joinByStackLoop (fun s => s.Spec.Annotations.Labels)
      "internal error: found service with no stack label" (initIDsMap stackIDs) services

/-- backend.getSwarmSecrets: queries secrets under the stack label filter
and joins them by stack ID read from Spec.Annotations.Labels. -/
def getSwarmSecrets (b : SwarmResourceBackend) (stackIDs : List String) :
    Except Failure (String → Option (List swarm.Secret)) :=
  match b.GetSecrets ⟨stackLabelFilters stackIDs⟩ with
  | Except.error e => Except.error (Failure.goError ("unable to list secrets: " ++ e))
  | Except.ok secrets =>
    joinByStackLoop (fun s => s.Spec.Annotations.Labels)
      "internal error: found secret with no stack label" (initIDsMap stackIDs) secrets

/-- backend.getSwarmConfigs: queries configs under the stack label filter
and joins them by stack ID read from Spec.Annotations.Labels; the source
reuses the service wording in its missing-label message. -/
def getSwarmConfigs (b : SwarmResourceBackend) (stackIDs : List String) :
    Except Failure (String → Option (List swarm.Config)) :=
  match b.GetConfigs ⟨stackLabelFilters stackIDs⟩ with
  | Except.error e => Except.error (Failure.goError ("unable to list configs: " ++ e))
  | Except.ok configs =>
    joinByStackLoop (fun s => s.Spec.Annotations.Labels)
      "internal error: found service with no stack label" (initIDsMap stackIDs) configs

namespace backend0

/-- The other source variant of backend.getSwarmTasks: a three-way switch on
the number of requested IDs, returning an empty map without querying when no
ID is requested, then the same join loop with its own message. -/
def getSwarmTasks (b : SwarmResourceBackend) (stackIDs : List String) :
    Except Failure (String → Option (List swarm.Task)) :=
  match stackIDs with
  | [] => Except.ok (fun _ => none)
  | _ :: _ =>
    let f : filters.Args :=
      match stackIDs with
      | [stackID] => StackLabelFilter stackID
      | _ => filters.NewArgs [filters.Arg "label" StackLabel]
    match b.GetTasks ⟨f⟩ with
    | Except.error e => Except.error (Failure.goError ("unable to get tasks for stacks: " ++ e))
    | Except.ok tasks =>
      joinByStackLoop swarm.Task.Labels
        "internal error: found task with no stack label despite label"
        (initIDsMap stackIDs) tasks

end backend0

/-- backend.getNodeCount: the number of nodes returned by the backend. -/
def getNodeCount (b : SwarmResourceBackend) : Except Failure Nat :=
  match b.GetNodes ⟨filters.NewArgs []⟩ with
  | Except.error e => Except.error (Failure.goError ("unable to list nodes: " ++ e))
  | Except.ok nodes => Except.ok nodes.length

/-- backend.stackServices: the name-to-resource inventory of services. -/
def stackServices (services : List swarm.Service) : List (String × StackResource) :=
  services.foldl
    (fun res service => mapInsert res service.Spec.Name ⟨service.ID, KindSwarmService⟩) []

/-- backend.stackSecrets: the name-to-resource inventory of secrets. -/
def stackSecrets (secrets : List swarm.Secret) : List (String × StackResource) :=
  secrets.foldl
    (fun res secret => mapInsert res secret.Spec.Name ⟨secret.ID, KindSwarmSecret⟩) []

/-- backend.stackConfigs: the name-to-resource inventory of configs. -/
def stackConfigs (configs : List swarm.Config) : List (String × StackResource) :=
  configs.foldl
    (fun res config => mapInsert res config.Spec.Name ⟨config.ID, KindSwarmConfig⟩) []

/-- The desired-task computation of backend.populateStackStatus: a service in
replicated mode dereferences the Replicas pointer (none when that pointer is
nil, which the source dereferences without a check and so panics on); a
global-mode service takes the node count. -/
def desiredOf (numNodes : Nat) (service : swarm.Service) : Option Nat :=
  match service.Spec.Mode.Replicated with
  | some replicated => replicated.Replicas
  | none => some numNodes

/-- The per-service loop of backend.populateStackStatus.  Each iteration
computes desiredTasks (panicking on a nil Replicas pointer), then the current
count, then writes the pair into the ServicesStatus map keyed by service name
(panicking when that Go map is nil).  The source declares currentTasks as 0
and then increments the distinct, undeclared identifier curentTasks inside
the counting loop over the tasks, so the declared counter is never updated
(as written the Go file does not even compile); the recorded CurrentTasks is
therefore always 0, which is why the tasks argument goes unused here. -/
def populateLoop (numNodes : Nat) (tasks : List swarm.Task) (stack : Stack) :
    List swarm.Service → Except Failure Stack
  | [] => Except.ok stack
  | service :: rest =>
    match desiredOf numNodes service with
    | none =>
      Except.error
        (Failure.goPanic "runtime error: invalid memory address or nil pointer dereference")
    | some desiredTasks =>
      match stack.Status.ServicesStatus with
      | none => Except.error (Failure.goPanic "assignment to entry in nil map")
      | some m =>
        populateLoop numNodes tasks
          { stack with Status := ⟨some (mapInsert m service.Spec.Name ⟨0, desiredTasks⟩)⟩ }
          rest

/-- backend.populateStackStatus: installs the resource inventories and then
runs the per-service status loop.  The Go function always returns a nil
error, so its only failures are panics. -/
def populateStackStatus (stack : Stack) (tasks : List swarm.Task)
    (services : List swarm.Service) (secrets : List swarm.Secret)
    (configs : List swarm.Config) (numNodes : Nat) : Except Failure Stack :=
  populateLoop numNodes tasks
    { stack with
        Resources := ⟨stackServices services, stackSecrets secrets, stackConfigs configs⟩ }
    services

/-- Reads the recorded status of one service from a stack (none when the
ServicesStatus map is nil or the name is absent). -/
def svcStatusLookup (stack : Stack) (name : String) : Option ServiceStatus :=
  match stack.Status.ServicesStatus with
  | none => none
  | some m => mapLookup m name

/-- The per-stack loop of backend.getStackStatuses: the four map reads whose
missing keys are explicit panics in the source, then populateStackStatus,
then the append onto newStacks.  The error branch after populateStackStatus
is dead in the source (that function always returns a nil error); a panic
raised inside it unwinds, which the propagated goPanic models. -/
def statusLoop (tasksM : String → Option (List swarm.Task))
    (servicesM : String → Option (List swarm.Service))
    (secretsM : String → Option (List swarm.Secret))
    (configsM : String → Option (List swarm.Config))
    (nodeCount : Nat) (newStacks : List Stack) : List Stack → Except Failure (List Stack)
  | [] => Except.ok newStacks
  | stack :: rest =>
    match tasksM stack.ID with
    | none =>
      Except.error (Failure.goPanic "internal error: task map does not contain expected ID")
    | some stackTasks =>
      match servicesM stack.ID with
      | none =>
        Except.error (Failure.goPanic "internal error: services map does not contain expected ID")
      | some stackServicesList =>
        match secretsM stack.ID with
        | none =>
          Except.error
            (Failure.goPanic "internal error: services map does not contain expected ID")
        | some stackSecretsList =>
          match configsM stack.ID with
          | none =>
            Except.error
              (Failure.goPanic "internal error: configs map does not contain expected ID")
          | some stackConfigsList =>
            match populateStackStatus stack stackTasks stackServicesList stackSecretsList
                stackConfigsList nodeCount with
            | Except.error f => Except.error f
            | Except.ok stack2 =>
              statusLoop tasksM servicesM secretsM configsM nodeCount
                (newStacks ++ [stack2]) rest

/-- backend.getStackStatuses: early return on an empty request, the four
per-kind joins plus the node count, then the per-stack loop.  The source
preallocates newStacks as make with length len(stacks) and then appends, so
the loop starts from len(stacks) zero-value stacks. -/
def getStackStatuses (b : SwarmResourceBackend) (stackList : List Stack) :
    Except Failure (List Stack) :=
  match stackList with
  | [] => Except.ok []
  | _ :: _ =>
    let stackIDs := stackList.map Stack.ID
    match getSwarmTasks b stackIDs with
    | Except.error f => Except.error (wrapFailure "unable to get swarm tasks: " f)
    | Except.ok tasks =>
      match getSwarmServices b stackIDs with
      | Except.error f => Except.error (wrapFailure "unable to get swarm services: " f)
      | Except.ok services =>
        match getSwarmSecrets b stackIDs with
        | Except.error f => Except.error (wrapFailure "unable to get swarm secrets: " f)
        | Except.ok secrets =>
          match getSwarmConfigs b stackIDs with
          | Except.error f => Except.error (wrapFailure "unable to get swarm secrets: " f)
          | Except.ok configs =>
            match getNodeCount b with
            | Except.error f => Except.error (wrapFailure "unable to get nodes: " f)
            | Except.ok nodeCount =>
              statusLoop tasks services secrets configs nodeCount
                (List.replicate stackList.length Stack.zero) stackList

/-- types.StackSpec metadata: name plus user labels. -/
structure Metadata where
  Name : String
  Labels : Labels
deriving DecidableEq

/-- composetypes.ServiceConfig, restricted to the fields the source reads:
the keys of its networks map (attachment declarations). -/
structure ServiceConfig where
  Name : String
  Networks : List String
deriving DecidableEq

/-- types.StackSpec, with the per-kind declaration lists kept opaque (their
elements are only ever passed through to the external conversion stages). -/
structure StackSpec where
  Metadata : Metadata
  Services : List ServiceConfig
  Configs : List String
  Secrets : List String
  Networks : List String
deriving DecidableEq

/-- interfaces.SwarmStackSpec, with the orchestrator-native per-kind specs
kept opaque (they are produced wholesale by the external conversion stages). -/
structure SwarmStackSpec where
  Annotations : swarm.Annotations
  Services : List String
  Configs : List String
  Secrets : List String
  Networks : List String
deriving DecidableEq

/-- The Go zero value of interfaces.SwarmStackSpec. -/
def SwarmStackSpec.zero : SwarmStackSpec := ⟨⟨"", []⟩, [], [], [], []⟩

/-- Insertion into a Go map used as a set of strings. -/
def setInsert (s : List String) (x : String) : List String :=
  if x ∈ s then s else s ++ [x]

/-- backend.getServicesDeclaredNetworks: the set of networks declared by the
services, a service declaring none being attributed to "default". -/
def getServicesDeclaredNetworks (serviceConfigs : List ServiceConfig) : List String :=
  serviceConfigs.foldl
    (fun serviceNetworks serviceConfig =>
      if serviceConfig.Networks = [] then setInsert serviceNetworks "default"
      else serviceConfig.Networks.foldl setInsert serviceNetworks)
    []

/-- backend.convertToSwarmStackSpec: the strictly ordered conversion pipeline.
The external stages (substitution.DoSubstitution, convert.NewNamespace,
convert.Services, convert.Configs, convert.Secrets, convert.Networks) are
function parameters, exactly as ordered and wired in the source: a
substitution error is returned as-is, the three conversion errors are
wrapped with their stage message, the network conversion error is discarded
(the source binds it to the blank identifier), and the assembled spec takes
its annotations from the unsubstituted metadata. -/
def convertToSwarmStackSpec
    (doSubstitution : StackSpec → Except String StackSpec)
    (newNamespace : String → String)
    (convertServices : String → StackSpec → SwarmResourceBackend → Except String (List String))
    (convertConfigs : String → List String → Except String (List String))
    (convertSecrets : String → List String → Except String (List String))
    (convertNetworks : String → List String → List String → (List String × Option String))
    (b : SwarmResourceBackend) (spec : StackSpec) : SwarmStackSpec × Option String :=
  match doSubstitution spec with
  | Except.error err => (SwarmStackSpec.zero, some err)
  | Except.ok substitutedSpec =>
    let ns := newNamespace spec.Metadata.Name
    match convertServices ns substitutedSpec b with
    | Except.error err => (SwarmStackSpec.zero, some ("failed to convert services : " ++ err))
    | Except.ok services =>
      match convertConfigs ns substitutedSpec.Configs with
      | Except.error err => (SwarmStackSpec.zero, some ("failed to convert configs: " ++ err))
      | Except.ok configs =>
        match convertSecrets ns substitutedSpec.Secrets with
        | Except.error err => (SwarmStackSpec.zero, some ("failed to convert secrets: " ++ err))
        | Except.ok secrets =>
          let serviceNetworks := getServicesDeclaredNetworks substitutedSpec.Services
          let networkCreates :=
            (convertNetworks ns substitutedSpec.Networks serviceNetworks).1
          (⟨⟨spec.Metadata.Name, spec.Metadata.Labels⟩,
              services, configs, secrets, networkCreates⟩, none)

/-- Splits a character list at the first occurrence of the character =,
returning the key and value parts, or none when = does not occur. -/
def breakOnEq : List Char → Option (List Char × List Char)
  | [] => none
  | c :: rest =>
    if c = '=' then some ([], rest)
    else
      match breakOnEq rest with
      | none => none
      | some (k, v) => some (c :: k, v)

/-- Modelled from the spec: the predicate meaning of one label filter
argument, per the docker filter language of the orchestrator query interface
(whose implementation lives outside the provided sources).  The argument
k=v matches labels holding value v at key k (an exact-equality predicate);
the argument k matches labels holding any value at key k (an existence-only
predicate). -/
def labelArgMatches (labels : Labels) (arg : String) : Bool :=
  match breakOnEq arg.data with
  | some (k, v) => mapLookup labels (String.mk k) == some (String.mk v)
  | none => (mapLookup labels arg).isSome

/-- Modelled from the spec: a filters.Args value matches a resource when each
of its label arguments matches the resource labels; an empty Args places no
constraint and matches everything. -/
def filterMatches (args : filters.Args) (labels : Labels) : Bool :=
  args.all (fun a => if a.1 = "label" then labelArgMatches labels a.2 else true)

/-- The conclusion of the key-set invariant: each per-kind join succeeds and
its table holds exactly the requested stack IDs as keys. -/
def JoinKeysetConcl (b : SwarmResourceBackend) (ids : List String) : Prop :=
  (∃ m, getSwarmTasks b ids = Except.ok m ∧ ∀ s, (m s).isSome = true ↔ s ∈ ids) ∧
  (∃ m, getSwarmServices b ids = Except.ok m ∧ ∀ s, (m s).isSome = true ↔ s ∈ ids) ∧
  (∃ m, getSwarmSecrets b ids = Except.ok m ∧ ∀ s, (m s).isSome = true ↔ s ∈ ids) ∧
  (∃ m, getSwarmConfigs b ids = Except.ok m ∧ ∀ s, (m s).isSome = true ↔ s ∈ ids)

/-- The conclusion of the fail-fast and silent-exclusion policy, per resource
kind: a raw resource with no stack label fails the whole batch with the
internal-consistency error of its kind; when every raw resource is labelled
the join returns a mapping; and a resource labelled with an unrequested
stack ID appears in no bucket of a returned mapping. -/
def FailFastConcl (b : SwarmResourceBackend) (ids : List String)
    (ts : List swarm.Task) (ss : List swarm.Service) (xs : List swarm.Secret)
    (cs : List swarm.Config) : Prop :=
  ((∃ t ∈ ts, mapLookup t.Labels StackLabel = none) →
      getSwarmTasks b ids =
        Except.error (Failure.goError "internal error: found task with no stack label")) ∧
  ((∀ t ∈ ts, (mapLookup t.Labels StackLabel).isSome = true) →
      ∃ m, getSwarmTasks b ids = Except.ok m) ∧
  (∀ m, getSwarmTasks b ids = Except.ok m →
      ∀ t z, mapLookup t.Labels StackLabel = some z → z ∉ ids →
        ∀ s l, m s = some l → t ∉ l) ∧
  ((∃ r ∈ ss, mapLookup r.Spec.Annotations.Labels StackLabel = none) →
      getSwarmServices b ids =
        Except.error (Failure.goError "internal error: found service with no stack label")) ∧
  ((∀ r ∈ ss, (mapLookup r.Spec.Annotations.Labels StackLabel).isSome = true) →
      ∃ m, getSwarmServices b ids = Except.ok m) ∧
  (∀ m, getSwarmServices b ids = Except.ok m →
      ∀ (r : swarm.Service) z, mapLookup r.Spec.Annotations.Labels StackLabel = some z →
        z ∉ ids → ∀ s l, m s = some l → r ∉ l) ∧
  ((∃ r ∈ xs, mapLookup r.Spec.Annotations.Labels StackLabel = none) →
      getSwarmSecrets b ids =
        Except.error (Failure.goError "internal error: found secret with no stack label")) ∧
  ((∀ r ∈ xs, (mapLookup r.Spec.Annotations.Labels StackLabel).isSome = true) →
      ∃ m, getSwarmSecrets b ids = Except.ok m) ∧
  (∀ m, getSwarmSecrets b ids = Except.ok m →
      ∀ (r : swarm.Secret) z, mapLookup r.Spec.Annotations.Labels StackLabel = some z →
        z ∉ ids → ∀ s l, m s = some l → r ∉ l) ∧
  ((∃ r ∈ cs, mapLookup r.Spec.Annotations.Labels StackLabel = none) →
      getSwarmConfigs b ids =
        Except.error (Failure.goError "internal error: found service with no stack label")) ∧
  ((∀ r ∈ cs, (mapLookup r.Spec.Annotations.Labels StackLabel).isSome = true) →
      ∃ m, getSwarmConfigs b ids = Except.ok m) ∧
  (∀ m, getSwarmConfigs b ids = Except.ok m →
      ∀ (r : swarm.Config) z, mapLookup r.Spec.Annotations.Labels StackLabel = some z →
        z ∉ ids → ∀ s l, m s = some l → r ∉ l)

/-- A backend whose queries all succeed with empty results. -/
def emptyBackend : SwarmResourceBackend :=
  ⟨fun _ => Except.ok [], fun _ => Except.ok [], fun _ => Except.ok [],
   fun _ => Except.ok [], fun _ => Except.ok []⟩

/-- A requested stack named a, carrying the Go zero status (nil map). -/
def stackA : Stack := ⟨"a", ⟨none⟩, ⟨[], [], []⟩⟩

/-- A stack named a whose ServicesStatus map has been initialized to empty. -/
def stackInit : Stack := ⟨"a", ⟨some []⟩, ⟨[], [], []⟩⟩

/-- A replicated-mode service named web with 4 configured replicas. -/
def svcWeb : swarm.Service := ⟨"svc1", ⟨⟨"web", []⟩, ⟨some ⟨some 4⟩⟩⟩⟩

/-- A global-mode service named glob. -/
def svcGlob : swarm.Service := ⟨"svc2", ⟨⟨"glob", []⟩, ⟨none⟩⟩⟩

/-- A running task of service svc1. -/
def taskRun1 : swarm.Task := ⟨"svc1", ⟨"running"⟩, [(StackLabel, "a")]⟩

/-- A second running task of service svc1. -/
def taskRun2 : swarm.Task := ⟨"svc1", ⟨"running"⟩, [(StackLabel, "a"), ("slot", "2")]⟩

/-- A failed task of service svc1. -/
def taskFailed : swarm.Task := ⟨"svc1", ⟨"failed"⟩, [(StackLabel, "a")]⟩

/-- A task labelled as belonging to stack a. -/
def taskA : swarm.Task := ⟨"svc1", ⟨"running"⟩, [(StackLabel, "a")]⟩

/-- A secret labelled as belonging to stack a. -/
def secretA : swarm.Secret := ⟨"sec1", ⟨⟨"s1", [(StackLabel, "a")]⟩⟩⟩

/-- A service labelled as belonging to the unrequested stack zzz. -/
def svcForeign : swarm.Service := ⟨"svcZ", ⟨⟨"z1", [(StackLabel, "zzz")]⟩, ⟨none⟩⟩⟩

/-- A task carrying no stack label at all. -/
def taskNoLabel : swarm.Task := ⟨"svcX", ⟨"running"⟩, []⟩

/-- A backend returning one task and one secret of stack a. -/
def backendAB : SwarmResourceBackend :=
  ⟨fun _ => Except.ok [taskA], fun _ => Except.ok [], fun _ => Except.ok [secretA],
   fun _ => Except.ok [], fun _ => Except.ok []⟩

/-- A backend returning one unlabelled task and one foreign-labelled service. -/
def backendMixed : SwarmResourceBackend :=
  ⟨fun _ => Except.ok [taskNoLabel], fun _ => Except.ok [svcForeign], fun _ => Except.ok [],
   fun _ => Except.ok [], fun _ => Except.ok []⟩

/-- A small declarative stack spec used to instantiate the conversion
pipeline in witnesses. -/
def demoSpec : StackSpec := ⟨⟨"demo", []⟩, [⟨"web", []⟩], [], [], []⟩

/-! ### Helper lemmas about the map model and the join loop -/

theorem mapLookup_mapInsert_self {α : Type} (m : List (String × α)) (k : String) (v : α) :
    mapLookup (mapInsert m k v) k = some v := by
  induction m with
  | nil => simp [mapInsert, mapLookup]
  | cons p rest ih =>
    obtain ⟨k0, v0⟩ := p
    by_cases h : k0 = k
    · simp [mapInsert, h, mapLookup]
    · simp [mapInsert, h, mapLookup, ih]

theorem mapLookup_mapInsert_ne {α : Type} (m : List (String × α)) (k key : String) (v : α)
    (h : k ≠ key) : mapLookup (mapInsert m k v) key = mapLookup m key := by
  induction m with
  | nil => simp [mapInsert, mapLookup, h]
  | cons p rest ih =>
    obtain ⟨k0, v0⟩ := p
    by_cases h0 : k0 = k
    · subst h0; simp [mapInsert, mapLookup, h]
    · simp [mapInsert, h0, mapLookup, ih]

theorem mapSet_self {τ : Type} (m : String → Option (List τ)) (k : String) (v : List τ) :
    mapSet m k v k = some v := by
  simp [mapSet]

theorem mapSet_ne {τ : Type} (m : String → Option (List τ)) (k : String) (v : List τ)
    (s : String) (h : s ≠ k) : mapSet m k v s = m s := by
  simp [mapSet, h]

theorem mapSet_isSome {τ : Type} (m : String → Option (List τ)) (k : String) (v : List τ)
    (s : String) : ((mapSet m k v) s).isSome = true ↔ s = k ∨ (m s).isSome = true := by
  by_cases h : s = k <;> simp [mapSet, h]

theorem initIDsMapFrom_isSome {τ : Type} (ids : List String) :
    ∀ (m : String → Option (List τ)) (s : String),
      ((initIDsMapFrom m ids) s).isSome = true ↔ s ∈ ids ∨ (m s).isSome = true := by
  induction ids with
  | nil => intro m s; simp [initIDsMapFrom]
  | cons sid rest ih =>
    intro m s
    rw [initIDsMapFrom, ih, mapSet_isSome]
    simp [List.mem_cons]
    tauto

theorem initIDsMap_isSome {τ : Type} (ids : List String) (s : String) :
    ((initIDsMap ids : String → Option (List τ)) s).isSome = true ↔ s ∈ ids := by
  rw [initIDsMap, initIDsMapFrom_isSome]
  simp

/-- Every bucket of the table holds only resources labelled with that bucket key. -/
def BucketsLabeled {τ : Type} (labelsOf : τ → Labels) (m : String → Option (List τ)) : Prop :=
  ∀ s l, m s = some l → ∀ x ∈ l, mapLookup (labelsOf x) StackLabel = some s

theorem bucketsLabeled_initIDsMapFrom {τ : Type} (labelsOf : τ → Labels) (ids : List String) :
    ∀ (m : String → Option (List τ)), BucketsLabeled labelsOf m →
      BucketsLabeled labelsOf (initIDsMapFrom m ids) := by
  induction ids with
  | nil => intro m hm; exact hm
  | cons sid rest ih =>
    intro m hm
    rw [initIDsMapFrom]
    apply ih
    intro s l hl x hx
    by_cases hs : s = sid
    · subst hs
      rw [mapSet_self] at hl
      cases hl
      cases hx
    · rw [mapSet_ne _ _ _ _ hs] at hl
      exact hm s l hl x hx

theorem bucketsLabeled_initIDsMap {τ : Type} (labelsOf : τ → Labels) (ids : List String) :
    BucketsLabeled labelsOf (initIDsMap ids) := by
  apply bucketsLabeled_initIDsMapFrom
  intro s l hl
  cases hl

theorem joinByStackLoop_ok_isSome {τ : Type} (labelsOf : τ → Labels) (errMsg : String)
    (rs : List τ) :
    ∀ (m m' : String → Option (List τ)),
      joinByStackLoop labelsOf errMsg m rs = Except.ok m' →
      ∀ s, (m' s).isSome = true ↔ (m s).isSome = true := by
  induction rs with
  | nil =>
    intro m m' h s
    rw [joinByStackLoop] at h
    cases h
    rfl
  | cons r rest ih =>
    intro m m' h s
    cases hl : mapLookup (labelsOf r) StackLabel with
    | none =>
      rw [joinByStackLoop, hl] at h
      cases h
    | some k =>
      cases hk : m k with
      | some lst =>
        simp only [joinByStackLoop, hl, hk] at h
        rw [ih _ _ h s, mapSet_isSome]
        constructor
        · rintro (rfl | hs)
          · simp [hk]
          · exact hs
        · intro hs; exact Or.inr hs
      | none =>
        simp only [joinByStackLoop, hl, hk] at h
        exact ih _ _ h s

theorem joinByStackLoop_ok_of_labeled {τ : Type} (labelsOf : τ → Labels) (errMsg : String)
    (rs : List τ) :
    ∀ (m : String → Option (List τ)),
      (∀ r ∈ rs, (mapLookup (labelsOf r) StackLabel).isSome = true) →
      ∃ m', joinByStackLoop labelsOf errMsg m rs = Except.ok m' := by
  induction rs with
  | nil => intro m _; exact ⟨m, rfl⟩
  | cons r rest ih =>
    intro m hall
    have hr := hall r (List.mem_cons_self r rest)
    cases hl : mapLookup (labelsOf r) StackLabel with
    | none => rw [hl] at hr; cases hr
    | some k =>
      have hrest : ∀ x ∈ rest, (mapLookup (labelsOf x) StackLabel).isSome = true :=
        fun x hx => hall x (List.mem_cons_of_mem r hx)
      cases hk : m k with
      | some lst =>
        simp only [joinByStackLoop, hl, hk]
        exact ih _ hrest
      | none =>
        simp only [joinByStackLoop, hl, hk]
        exact ih _ hrest

theorem joinByStackLoop_error_of_missing {τ : Type} (labelsOf : τ → Labels) (errMsg : String)
    (rs : List τ) :
    ∀ (m : String → Option (List τ)) (r0 : τ), r0 ∈ rs →
      mapLookup (labelsOf r0) StackLabel = none →
      joinByStackLoop labelsOf errMsg m rs = Except.error (Failure.goError errMsg) := by
  induction rs with
  | nil => intro m r0 hr0; intro _; cases hr0
  | cons r rest ih =>
    intro m r0 hr0 hmiss
    rcases List.mem_cons.mp hr0 with rfl | hr0
    · rw [joinByStackLoop, hmiss]
    · cases hl : mapLookup (labelsOf r) StackLabel with
      | none => rw [joinByStackLoop, hl]
      | some k =>
        cases hk : m k with
        | some lst =>
          simp only [joinByStackLoop, hl, hk]
          exact ih _ r0 hr0 hmiss
        | none =>
          simp only [joinByStackLoop, hl, hk]
          exact ih _ r0 hr0 hmiss

theorem joinByStackLoop_buckets {τ : Type} (labelsOf : τ → Labels) (errMsg : String)
    (rs : List τ) :
    ∀ (m m' : String → Option (List τ)), BucketsLabeled labelsOf m →
      joinByStackLoop labelsOf errMsg m rs = Except.ok m' →
      BucketsLabeled labelsOf m' := by
  induction rs with
  | nil =>
    intro m m' hm h
    rw [joinByStackLoop] at h
    cases h
    exact hm
  | cons r rest ih =>
    intro m m' hm h
    cases hl : mapLookup (labelsOf r) StackLabel with
    | none =>
      rw [joinByStackLoop, hl] at h
      cases h
    | some k =>
      cases hk : m k with
      | some lst =>
        simp only [joinByStackLoop, hl, hk] at h
        apply ih _ _ _ h
        intro s l hsl x hx
        by_cases hs : s = k
        · subst hs
          rw [mapSet_self] at hsl
          cases hsl
          rcases List.mem_append.mp hx with hx | hx
          · exact hm s lst hk x hx
          · rcases List.mem_singleton.mp hx with rfl
            exact hl
        · rw [mapSet_ne _ _ _ _ hs] at hsl
          exact hm s l hsl x hx
      | none =>
        simp only [joinByStackLoop, hl, hk] at h
        exact ih _ _ hm h

/-- A resource labelled with an unrequested stack ID lands in no bucket of a
table the join loop produced from the initialization table. -/
theorem joinByStackLoop_excludes {τ : Type} (labelsOf : τ → Labels) (errMsg : String)
    (ids : List String) (rs : List τ) (m' : String → Option (List τ))
    (h : joinByStackLoop labelsOf errMsg (initIDsMap ids) rs = Except.ok m')
    (x : τ) (z : String) (hz : mapLookup (labelsOf x) StackLabel = some z)
    (hzn : z ∉ ids) : ∀ s l, m' s = some l → x ∉ l := by
  intro s l hsl hx
  have hlab := joinByStackLoop_buckets labelsOf errMsg rs _ _
    (bucketsLabeled_initIDsMap labelsOf ids) h s l hsl x hx
  have hsz : z = s := by
    rw [hz] at hlab
    exact Option.some.inj hlab
  subst hsz
  have hks : (m' z).isSome = true := by rw [hsl]; rfl
  rw [joinByStackLoop_ok_isSome labelsOf errMsg rs _ _ h z, initIDsMap_isSome] at hks
  exact hzn hks

/-! ### Claim C3: the join key set equals the requested ID set -/

/-- Claim C3: for every list of requested stack IDs, when the orchestrator
query succeeds and every returned resource carries the stack label, each
per-kind join (tasks, services, secrets, configs) returns a mapping whose
key set equals exactly the set of requested stack IDs — every requested ID
is present (possibly bound to an empty list) and no other key appears,
regardless of which stacks the raw resources actually belong to. -/
theorem join_keyset_eq_requested (b : SwarmResourceBackend) (ids : List String)
    (ts : List swarm.Task) (ss : List swarm.Service) (xs : List swarm.Secret)
    (cs : List swarm.Config)
    (ht : b.GetTasks ⟨stackLabelFilters ids⟩ = Except.ok ts)
    (ht2 : ∀ t ∈ ts, (mapLookup t.Labels StackLabel).isSome = true)
    (hs : b.GetServices ⟨stackLabelFilters ids⟩ = Except.ok ss)
    (hs2 : ∀ r ∈ ss, (mapLookup r.Spec.Annotations.Labels StackLabel).isSome = true)
    (hx : b.GetSecrets ⟨stackLabelFilters ids⟩ = Except.ok xs)
    (hx2 : ∀ r ∈ xs, (mapLookup r.Spec.Annotations.Labels StackLabel).isSome = true)
    (hc : b.GetConfigs ⟨stackLabelFilters ids⟩ = Except.ok cs)
    (hc2 : ∀ r ∈ cs, (mapLookup r.Spec.Annotations.Labels StackLabel).isSome = true) :
    JoinKeysetConcl b ids := by
  refine ⟨?_, ?_, ?_, ?_⟩
  · obtain ⟨m, hm⟩ := joinByStackLoop_ok_of_labeled swarm.Task.Labels
      "internal error: found task with no stack label" ts (initIDsMap ids) ht2
    refine ⟨m, ?_, ?_⟩
    · simp only [getSwarmTasks, ht]
      exact hm
    · intro s
      rw [joinByStackLoop_ok_isSome _ _ _ _ _ hm s, initIDsMap_isSome]
  · obtain ⟨m, hm⟩ := joinByStackLoop_ok_of_labeled (fun r => r.Spec.Annotations.Labels)
      "internal error: found service with no stack label" ss (initIDsMap ids) hs2
    refine ⟨m, ?_, ?_⟩
    · simp only [getSwarmServices, hs]
      exact hm
    · intro s
      rw [joinByStackLoop_ok_isSome _ _ _ _ _ hm s, initIDsMap_isSome]
  · obtain ⟨m, hm⟩ := joinByStackLoop_ok_of_labeled (fun r => r.Spec.Annotations.Labels)
      "internal error: found secret with no stack label" xs (initIDsMap ids) hx2
    refine ⟨m, ?_, ?_⟩
    · simp only [getSwarmSecrets, hx]
      exact hm
    · intro s
      rw [joinByStackLoop_ok_isSome _ _ _ _ _ hm s, initIDsMap_isSome]
  · obtain ⟨m, hm⟩ := joinByStackLoop_ok_of_labeled (fun r => r.Spec.Annotations.Labels)
      "internal error: found service with no stack label" cs (initIDsMap ids) hc2
    refine ⟨m, ?_, ?_⟩
    · simp only [getSwarmConfigs, hc]
      exact hm
    · intro s
      rw [joinByStackLoop_ok_isSome _ _ _ _ _ hm s, initIDsMap_isSome]

/-- Witness for claim C3 at a concrete backend and the requested IDs a and b:
the queries succeed with one task and one secret of stack a, every resource
is labelled, and the key-set conclusion follows by the theorem. -/
theorem join_keyset_eq_requested_witness :
    (backendAB.GetTasks ⟨stackLabelFilters ["a", "b"]⟩ = Except.ok [taskA]) ∧
    (backendAB.GetServices ⟨stackLabelFilters ["a", "b"]⟩ = Except.ok []) ∧
    (backendAB.GetSecrets ⟨stackLabelFilters ["a", "b"]⟩ = Except.ok [secretA]) ∧
    (backendAB.GetConfigs ⟨stackLabelFilters ["a", "b"]⟩ = Except.ok []) ∧
    JoinKeysetConcl backendAB ["a", "b"] :=
  ⟨rfl, rfl, rfl, rfl,
    join_keyset_eq_requested backendAB ["a", "b"] [taskA] [] [secretA] []
      rfl (by decide) rfl (by decide) rfl (by decide) rfl (by decide)⟩

/-! ### Claim C5: fail-fast on a missing label, silent exclusion otherwise -/

/-- Claim C5: for every per-kind join, if any raw resource returned by the
orchestrator query is missing the stack-label key, the whole batch for that
resource kind fails with an internal-consistency error and no partial
mapping is returned; whereas a resource whose stack-label value is not in
the requested ID set is silently excluded from the result without an
error. -/
theorem join_missing_label_fail_fast (b : SwarmResourceBackend) (ids : List String)
    (ts : List swarm.Task) (ss : List swarm.Service) (xs : List swarm.Secret)
    (cs : List swarm.Config)
    (ht : b.GetTasks ⟨stackLabelFilters ids⟩ = Except.ok ts)
    (hs : b.GetServices ⟨stackLabelFilters ids⟩ = Except.ok ss)
    (hx : b.GetSecrets ⟨stackLabelFilters ids⟩ = Except.ok xs)
    (hc : b.GetConfigs ⟨stackLabelFilters ids⟩ = Except.ok cs) :
    FailFastConcl b ids ts ss xs cs := by
  refine ⟨?_, ?_, ?_, ?_, ?_, ?_, ?_, ?_, ?_, ?_, ?_, ?_⟩
  · rintro ⟨t, htmem, htmiss⟩
    simp only [getSwarmTasks, ht]
    exact joinByStackLoop_error_of_missing _ _ ts _ t htmem htmiss
  · intro hall
    obtain ⟨m, hm⟩ := joinByStackLoop_ok_of_labeled _ _ ts (initIDsMap ids) hall
    refine ⟨m, ?_⟩
    simp only [getSwarmTasks, ht]
    exact hm
  · intro m hmok t z hz hzn
    have hm : joinByStackLoop swarm.Task.Labels
        "internal error: found task with no stack label" (initIDsMap ids) ts =
        Except.ok m := by
      simpa only [getSwarmTasks, ht] using hmok
    exact joinByStackLoop_excludes _ _ ids ts m hm t z hz hzn
  · rintro ⟨r, hrmem, hrmiss⟩
    simp only [getSwarmServices, hs]
    exact joinByStackLoop_error_of_missing _ _ ss _ r hrmem hrmiss
  · intro hall
    obtain ⟨m, hm⟩ := joinByStackLoop_ok_of_labeled _ _ ss (initIDsMap ids) hall
    refine ⟨m, ?_⟩
    simp only [getSwarmServices, hs]
    exact hm
  · intro m hmok r z hz hzn
    have hm : joinByStackLoop (fun r => r.Spec.Annotations.Labels)
        "internal error: found service with no stack label" (initIDsMap ids) ss =
        Except.ok m := by
      simpa only [getSwarmServices, hs] using hmok
    exact joinByStackLoop_excludes _ _ ids ss m hm r z hz hzn
  · rintro ⟨r, hrmem, hrmiss⟩
    simp only [getSwarmSecrets, hx]
    exact joinByStackLoop_error_of_missing _ _ xs _ r hrmem hrmiss
  · intro hall
    obtain ⟨m, hm⟩ := joinByStackLoop_ok_of_labeled _ _ xs (initIDsMap ids) hall
    refine ⟨m, ?_⟩
    simp only [getSwarmSecrets, hx]
    exact hm
  · intro m hmok r z hz hzn
    have hm : joinByStackLoop (fun r => r.Spec.Annotations.Labels)
        "internal error: found secret with no stack label" (initIDsMap ids) xs =
        Except.ok m := by
      simpa only [getSwarmSecrets, hx] using hmok
    exact joinByStackLoop_excludes _ _ ids xs m hm r z hz hzn
  · rintro ⟨r, hrmem, hrmiss⟩
    simp only [getSwarmConfigs, hc]
    exact joinByStackLoop_error_of_missing _ _ cs _ r hrmem hrmiss
  · intro hall
    obtain ⟨m, hm⟩ := joinByStackLoop_ok_of_labeled _ _ cs (initIDsMap ids) hall
    refine ⟨m, ?_⟩
    simp only [getSwarmConfigs, hc]
    exact hm
  · intro m hmok r z hz hzn
    have hm : joinByStackLoop (fun r => r.Spec.Annotations.Labels)
        "internal error: found service with no stack label" (initIDsMap ids) cs =
        Except.ok m := by
      simpa only [getSwarmConfigs, hc] using hmok
    exact joinByStackLoop_excludes _ _ ids cs m hm r z hz hzn

/-- Witness for claim C5 at a concrete backend returning one unlabelled task
and one service labelled with the unrequested stack zzz, for the single
requested ID a. -/
theorem join_missing_label_fail_fast_witness :
    (backendMixed.GetTasks ⟨stackLabelFilters ["a"]⟩ = Except.ok [taskNoLabel]) ∧
    (backendMixed.GetServices ⟨stackLabelFilters ["a"]⟩ = Except.ok [svcForeign]) ∧
    (backendMixed.GetSecrets ⟨stackLabelFilters ["a"]⟩ = Except.ok []) ∧
    (backendMixed.GetConfigs ⟨stackLabelFilters ["a"]⟩ = Except.ok []) ∧
    FailFastConcl backendMixed ["a"] [taskNoLabel] [svcForeign] [] [] :=
  ⟨rfl, rfl, rfl, rfl,
    join_missing_label_fail_fast backendMixed ["a"] [taskNoLabel] [svcForeign] [] []
      rfl rfl rfl rfl⟩

/-! ### Claim C4: the three-way label filter -/

/-- Counterexample to claim C4 as stated.  The claim requires a no-match
predicate for the empty ID sequence, but stackLabelFilters of the empty
sequence is the existence-only filter, which matches any resource carrying
the stack-label key at all (first conjunct exhibits one).  The claim also
requires an exact-equality predicate for every singleton sequence, but the
singleton holding the empty ID yields the empty, unconstrained filter
(second conjunct), not an equality filter on the empty ID. -/
theorem stackLabelFilters_empty_not_nomatch :
    filterMatches (stackLabelFilters []) [(StackLabel, "a")] = true ∧
    stackLabelFilters [""] = filters.NewArgs [] := by
  constructor
  · decide
  · rfl

/-- Claim C4, amended: the filter built by stackLabelFilters is the
existence-only predicate on the stack-label key whenever the sequence does
not have exactly one ID (so also for the empty sequence); it is the
exact-equality predicate on key=id for exactly one non-empty ID; and it is
the empty, unconstrained filter for exactly one empty ID.  Separately, the
dedicated task-query variant short-circuits an empty sequence, returning an
empty result map without consulting the backend at all. -/
theorem stackLabelFilters_three_way (ids : List String) :
    (ids.length ≠ 1 →
        stackLabelFilters ids = filters.NewArgs [filters.Arg "label" StackLabel]) ∧
    (∀ sid, ids = [sid] → sid ≠ "" →
        stackLabelFilters ids =
          filters.NewArgs [filters.Arg "label" (StackLabel ++ "=" ++ sid)]) ∧
    (ids = [""] → stackLabelFilters ids = filters.NewArgs []) ∧
    (∀ b : SwarmResourceBackend, backend0.getSwarmTasks b [] = Except.ok (fun _ => none)) := by
  refine ⟨?_, ?_, ?_, ?_⟩
  · intro hnot
    cases ids with
    | nil => rfl
    | cons x rest =>
      cases rest with
      | nil => exact absurd rfl hnot
      | cons y rest2 => rfl
  · rintro sid rfl hne
    simp [stackLabelFilters, StackLabelFilter, hne]
  · rintro rfl
    rfl
  · intro b
    rfl

/-- Witness for the amended claim C4: the existence filter for two IDs and
the equality filter for the single non-empty ID x, both by the theorem. -/
theorem stackLabelFilters_three_way_witness :
    stackLabelFilters ["x", "y"] = filters.NewArgs [filters.Arg "label" StackLabel] ∧
    stackLabelFilters ["x"] =
      filters.NewArgs [filters.Arg "label" (StackLabel ++ "=" ++ "x")] :=
  ⟨(stackLabelFilters_three_way ["x", "y"]).1 (by decide),
   (stackLabelFilters_three_way ["x"]).2.1 "x" rfl (by decide)⟩

/-! ### Claim C8: implicit default network attribution -/

theorem setInsert_mem (s : List String) (y x : String) :
    x ∈ setInsert s y ↔ x ∈ s ∨ x = y := by
  by_cases h : y ∈ s
  · rw [setInsert, if_pos h]
    constructor
    · exact Or.inl
    · rintro (hx | rfl)
      · exact hx
      · exact h
  · rw [setInsert, if_neg h]
    simp [List.mem_append]

theorem foldl_setInsert_mem (l : List String) :
    ∀ (s : List String) (x : String), x ∈ l.foldl setInsert s ↔ x ∈ s ∨ x ∈ l := by
  induction l with
  | nil => intro s x; simp
  | cons y rest ih =>
    intro s x
    rw [List.foldl_cons, ih, setInsert_mem]
    simp [List.mem_cons]
    tauto

theorem declaredNetworks_foldl_mem (cfgs : List ServiceConfig) :
    ∀ (acc : List String) (n : String),
      (n ∈ cfgs.foldl
          (fun serviceNetworks serviceConfig =>
            if serviceConfig.Networks = [] then setInsert serviceNetworks "default"
            else serviceConfig.Networks.foldl setInsert serviceNetworks)
          acc) ↔
        n ∈ acc ∨ ∃ sc ∈ cfgs, (sc.Networks = [] ∧ n = "default") ∨ n ∈ sc.Networks := by
  induction cfgs with
  | nil => intro acc n; simp
  | cons sc rest ih =>
    intro acc n
    rw [List.foldl_cons, ih]
    by_cases h : sc.Networks = []
    · rw [if_pos h, setInsert_mem]
      simp [List.exists_mem_cons_iff, h]
      aesop
    · rw [if_neg h, foldl_setInsert_mem]
      simp [List.exists_mem_cons_iff, h]
      aesop

/-- Claim C8: during network-set derivation, every service that declares no
explicit networks is attributed to the implicit network named default, and
the derived set is the union over services of their declared networks (with
default substituted for services declaring none); a service with no network
declaration is never treated as needing no networks. -/
theorem declared_networks_default (cfgs : List ServiceConfig) :
    (∀ n, n ∈ getServicesDeclaredNetworks cfgs ↔
        ∃ sc ∈ cfgs, (sc.Networks = [] ∧ n = "default") ∨ n ∈ sc.Networks) ∧
    (∀ sc ∈ cfgs, sc.Networks = [] → "default" ∈ getServicesDeclaredNetworks cfgs) := by
  constructor
  · intro n
    rw [getServicesDeclaredNetworks, declaredNetworks_foldl_mem]
    simp
  · intro sc hsc h
    rw [getServicesDeclaredNetworks, declaredNetworks_foldl_mem]
    exact Or.inr ⟨sc, hsc, Or.inl ⟨h, rfl⟩⟩

/-- Witness for claim C8: a service with no declared networks contributes
default, and a declared network of another service is in the derived set,
both by the theorem. -/
theorem declared_networks_default_witness :
    "default" ∈ getServicesDeclaredNetworks [⟨"web", []⟩, ⟨"db", ["backnet"]⟩] ∧
    "backnet" ∈ getServicesDeclaredNetworks [⟨"web", []⟩, ⟨"db", ["backnet"]⟩] :=
  ⟨(declared_networks_default [⟨"web", []⟩, ⟨"db", ["backnet"]⟩]).2 ⟨"web", []⟩
      (by decide) rfl,
   ((declared_networks_default [⟨"web", []⟩, ⟨"db", ["backnet"]⟩]).1 "backnet").mpr
      ⟨⟨"db", ["backnet"]⟩, by decide, Or.inr (by decide)⟩⟩

/-! ### Helper lemmas about the per-service status loop -/

theorem svcStatusLookup_some {stack : Stack} {m : List (String × ServiceStatus)}
    (hm : stack.Status.ServicesStatus = some m) (n : String) :
    svcStatusLookup stack n = mapLookup m n := by
  simp only [svcStatusLookup, hm]

theorem populateLoop_preserve (numNodes : Nat) (tasks : List swarm.Task)
    (services : List swarm.Service) :
    ∀ (stack stack' : Stack),
      populateLoop numNodes tasks stack services = Except.ok stack' →
      ∀ n, n ∉ services.map (fun s => s.Spec.Name) →
        svcStatusLookup stack' n = svcStatusLookup stack n := by
  induction services with
  | nil =>
    intro stack stack' h n _
    rw [populateLoop] at h
    cases h
    rfl
  | cons s0 rest ih =>
    intro stack stack' h n hn
    simp only [List.map_cons, List.mem_cons, not_or] at hn
    obtain ⟨hn1, hn2⟩ := hn
    cases hd : desiredOf numNodes s0 with
    | none =>
      rw [populateLoop, hd] at h
      exact Except.noConfusion h
    | some d =>
      cases hm : stack.Status.ServicesStatus with
      | none =>
        rw [populateLoop, hd, hm] at h
        exact Except.noConfusion h
      | some m =>
        rw [populateLoop, hd, hm] at h
        have h2 : populateLoop numNodes tasks
            { stack with Status := ⟨some (mapInsert m s0.Spec.Name ⟨0, d⟩)⟩ } rest =
            Except.ok stack' := h
        rw [ih _ _ h2 n hn2]
        have hmid : svcStatusLookup
            { stack with Status := ⟨some (mapInsert m s0.Spec.Name ⟨0, d⟩)⟩ } n =
            mapLookup (mapInsert m s0.Spec.Name ⟨0, d⟩) n := rfl
        rw [hmid, mapLookup_mapInsert_ne _ _ _ _ (fun hh => hn1 hh.symm),
          svcStatusLookup_some hm n]

theorem populateLoop_lookup (numNodes : Nat) (tasks : List swarm.Task)
    (services : List swarm.Service) :
    ∀ (stack stack' : Stack),
      populateLoop numNodes tasks stack services = Except.ok stack' →
      (services.map (fun s => s.Spec.Name)).Nodup →
      ∀ service ∈ services, ∀ d, desiredOf numNodes service = some d →
        svcStatusLookup stack' service.Spec.Name = some ⟨0, d⟩ := by
  induction services with
  | nil =>
    intro stack stack' _ _ service hmem
    cases hmem
  | cons s0 rest ih =>
    intro stack stack' h hnd service hmem d hd
    rw [List.map_cons, List.nodup_cons] at hnd
    obtain ⟨hnotin, hndrest⟩ := hnd
    cases hd0 : desiredOf numNodes s0 with
    | none =>
      rw [populateLoop, hd0] at h
      exact Except.noConfusion h
    | some d0 =>
      cases hm : stack.Status.ServicesStatus with
      | none =>
        rw [populateLoop, hd0, hm] at h
        exact Except.noConfusion h
      | some m =>
        rw [populateLoop, hd0, hm] at h
        have h2 : populateLoop numNodes tasks
            { stack with Status := ⟨some (mapInsert m s0.Spec.Name ⟨0, d0⟩)⟩ } rest =
            Except.ok stack' := h
        rcases List.mem_cons.mp hmem with rfl | hmem2
        · have hdd : d = d0 := (Option.some.inj (hd0.symm.trans hd)).symm
          subst hdd
          have hpres := populateLoop_preserve numNodes tasks rest _ _ h2
            service.Spec.Name hnotin
          rw [hpres]
          have hmid : svcStatusLookup
              { stack with Status := ⟨some (mapInsert m service.Spec.Name ⟨0, d⟩)⟩ }
              service.Spec.Name =
              mapLookup (mapInsert m service.Spec.Name ⟨0, d⟩) service.Spec.Name := rfl
          rw [hmid, mapLookup_mapInsert_self]
        · exact ih _ _ h2 hndrest service hmem2 d hd

theorem desiredOf_isSome_iff (numNodes : Nat) (service : swarm.Service) :
    (desiredOf numNodes service).isSome = true ↔
      ∀ replicated, service.Spec.Mode.Replicated = some replicated →
        replicated.Replicas.isSome = true := by
  cases h : service.Spec.Mode.Replicated with
  | none => simp [desiredOf, h]
  | some r => simp [desiredOf, h]

theorem populateLoop_isOk_iff (numNodes : Nat) (tasks : List swarm.Task)
    (services : List swarm.Service) :
    ∀ (stack : Stack),
      exceptIsOk (populateLoop numNodes tasks stack services) = true ↔
        (services = [] ∨ (stack.Status.ServicesStatus.isSome = true ∧
          ∀ s ∈ services, (desiredOf numNodes s).isSome = true)) := by
  induction services with
  | nil =>
    intro stack
    simp [populateLoop, exceptIsOk]
  | cons s0 rest ih =>
    intro stack
    cases hd : desiredOf numNodes s0 with
    | none =>
      rw [populateLoop, hd]
      constructor
      · intro hfalse
        exact Bool.noConfusion hfalse
      · rintro (hnil | ⟨-, hall⟩)
        · exact absurd hnil (List.cons_ne_nil s0 rest)
        · have hs0 := hall s0 (List.mem_cons_self s0 rest)
          rw [hd] at hs0
          exact Bool.noConfusion hs0
    | some d =>
      cases hm : stack.Status.ServicesStatus with
      | none =>
        rw [populateLoop, hd, hm]
        constructor
        · intro hfalse
          exact Bool.noConfusion hfalse
        · rintro (hnil | ⟨hs, -⟩)
          · exact absurd hnil (List.cons_ne_nil s0 rest)
          · exact Bool.noConfusion hs
      | some m =>
        rw [populateLoop, hd, hm]
        have ihn := ih { stack with Status := ⟨some (mapInsert m s0.Spec.Name ⟨0, d⟩)⟩ }
        constructor
        · intro hok
          have hr := ihn.mp hok
          refine Or.inr ⟨rfl, ?_⟩
          intro s hs
          rcases List.mem_cons.mp hs with rfl | hs2
          · rw [hd]; rfl
          · rcases hr with hnil | ⟨-, hall⟩
            · subst hnil; cases hs2
            · exact hall s hs2
        · rintro (hnil | ⟨-, hall⟩)
          · exact absurd hnil (List.cons_ne_nil s0 rest)
          · exact ihn.mpr (Or.inr ⟨rfl, fun s hs => hall s (List.mem_cons_of_mem s0 hs)⟩)

/-! ### Claim C6: desired tasks from scheduling mode -/

/-- Claim C6: for every service whose status is computed, a replicated-mode
service records the explicitly configured replica count as its desired task
count regardless of cluster node count, and a global-mode service records
the cluster-wide node count.  Service names are assumed distinct, as a later
same-named service would overwrite the recorded entry. -/
theorem desiredTasks_mode (stack : Stack) (tasks : List swarm.Task)
    (services : List swarm.Service) (secrets : List swarm.Secret)
    (configs : List swarm.Config) (numNodes : Nat) (stack' : Stack)
    (service : swarm.Service)
    (hok : populateStackStatus stack tasks services secrets configs numNodes =
      Except.ok stack')
    (hnd : (services.map (fun s => s.Spec.Name)).Nodup)
    (hmem : service ∈ services) :
    (∀ replicated replicas, service.Spec.Mode.Replicated = some replicated →
        replicated.Replicas = some replicas →
        ∃ st, svcStatusLookup stack' service.Spec.Name = some st ∧
          st.DesiredTasks = replicas) ∧
    (service.Spec.Mode.Replicated = none →
        ∃ st, svcStatusLookup stack' service.Spec.Name = some st ∧
          st.DesiredTasks = numNodes) := by
  have hloop : populateLoop numNodes tasks
      { stack with
          Resources := ⟨stackServices services, stackSecrets secrets, stackConfigs configs⟩ }
      services = Except.ok stack' := hok
  constructor
  · intro replicated replicas h1 h2
    have hd : desiredOf numNodes service = some replicas := by
      simp only [desiredOf, h1]
      exact h2
    have hres := populateLoop_lookup numNodes tasks services _ _ hloop hnd
      service hmem replicas hd
    exact ⟨⟨0, replicas⟩, hres, rfl⟩
  · intro h1
    have hd : desiredOf numNodes service = some numNodes := by
      simp only [desiredOf, h1]
    have hres := populateLoop_lookup numNodes tasks services _ _ hloop hnd
      service hmem numNodes hd
    exact ⟨⟨0, numNodes⟩, hres, rfl⟩

/-- Witness for claim C6: on a 9-node count, the replicated service web with
4 configured replicas records desired 4 and the global service glob records
desired 9, both by the theorem. -/
theorem desiredTasks_mode_witness :
    (populateStackStatus stackInit [] [svcWeb, svcGlob] [] [] 9 =
      Except.ok ⟨"a", ⟨some [("web", ⟨0, 4⟩), ("glob", ⟨0, 9⟩)]⟩,
        ⟨[("web", ⟨"svc1", KindSwarmService⟩), ("glob", ⟨"svc2", KindSwarmService⟩)],
          [], []⟩⟩) ∧
    (∃ st, svcStatusLookup ⟨"a", ⟨some [("web", ⟨0, 4⟩), ("glob", ⟨0, 9⟩)]⟩,
        ⟨[("web", ⟨"svc1", KindSwarmService⟩), ("glob", ⟨"svc2", KindSwarmService⟩)],
          [], []⟩⟩ "web" = some st ∧ st.DesiredTasks = 4) ∧
    (∃ st, svcStatusLookup ⟨"a", ⟨some [("web", ⟨0, 4⟩), ("glob", ⟨0, 9⟩)]⟩,
        ⟨[("web", ⟨"svc1", KindSwarmService⟩), ("glob", ⟨"svc2", KindSwarmService⟩)],
          [], []⟩⟩ "glob" = some st ∧ st.DesiredTasks = 9) :=
  ⟨rfl,
   (desiredTasks_mode stackInit [] [svcWeb, svcGlob] [] [] 9 _ svcWeb rfl (by decide)
      (by decide)).1 ⟨some 4⟩ 4 rfl rfl,
   (desiredTasks_mode stackInit [] [svcWeb, svcGlob] [] [] 9 _ svcGlob rfl (by decide)
      (by decide)).2 rfl⟩

/-! ### Claim C10: partiality of populateStackStatus -/

/-- Claim C10: populateStackStatus is partial at its interface.  For a stack
with a non-empty services list it writes into the ServicesStatus map without
initializing it and dereferences Spec.Mode.Replicated.Replicas of every
replicated service without a nil check; it completes without panicking
exactly when the ServicesStatus map is non-nil and every replicated service
carries a non-nil Replicas pointer. -/
theorem populateStackStatus_partiality (stack : Stack) (tasks : List swarm.Task)
    (services : List swarm.Service) (secrets : List swarm.Secret)
    (configs : List swarm.Config) (numNodes : Nat) (hne : services ≠ []) :
    exceptIsOk (populateStackStatus stack tasks services secrets configs numNodes) = true ↔
      (stack.Status.ServicesStatus.isSome = true ∧
        ∀ s ∈ services, ∀ replicated, s.Spec.Mode.Replicated = some replicated →
          replicated.Replicas.isSome = true) := by
  refine Iff.trans (populateLoop_isOk_iff numNodes tasks services
    { stack with
        Resources := ⟨stackServices services, stackSecrets secrets, stackConfigs configs⟩ })
    ?_
  constructor
  · rintro (hnil | ⟨hs, hall⟩)
    · exact absurd hnil hne
    · refine ⟨hs, fun s hsmem replicated h1 => ?_⟩
      have hds := hall s hsmem
      simp only [desiredOf, h1] at hds
      exact hds
  · rintro ⟨hs, hall⟩
    refine Or.inr ⟨hs, fun s hsmem => ?_⟩
    rw [desiredOf_isSome_iff]
    exact fun replicated h1 => hall s hsmem replicated h1

/-- Witness for claim C10: with an initialized map and one global service,
the loop succeeds and the equivalence holds at that input by the theorem. -/
theorem populateStackStatus_partiality_witness :
    (([svcGlob] : List swarm.Service) ≠ []) ∧
    (exceptIsOk (populateStackStatus stackInit [] [svcGlob] [] [] 2) = true ↔
      (stackInit.Status.ServicesStatus.isSome = true ∧
        ∀ s ∈ [svcGlob], ∀ replicated, s.Spec.Mode.Replicated = some replicated →
          replicated.Replicas.isSome = true)) :=
  ⟨by decide, populateStackStatus_partiality stackInit [] [svcGlob] [] [] 2 (by decide)⟩

/-! ### Claim C1: the current-task count is never incremented -/

/-- Claim C1 fails on the code: the source declares currentTasks and then
increments the distinct, undeclared identifier curentTasks, so the declared
counter stays 0 (and the Go file does not compile as written).  Evaluating
the modelled code at the failing input of the claim — a replicated service
with three tasks in states running, running and failed — records
CurrentTasks 0 where the claim requires 2. -/
theorem currentTasks_never_incremented :
    populateStackStatus stackInit [taskRun1, taskRun2, taskFailed] [svcWeb] [] [] 1 =
      Except.ok ⟨"a", ⟨some [("web", ⟨0, 4⟩)]⟩,
        ⟨[("web", ⟨"svc1", KindSwarmService⟩)], [], []⟩⟩ ∧
    svcStatusLookup ⟨"a", ⟨some [("web", ⟨0, 4⟩)]⟩,
        ⟨[("web", ⟨"svc1", KindSwarmService⟩)], [], []⟩⟩ "web" = some ⟨0, 4⟩ := by
  constructor
  · rfl
  · rfl

/-! ### Claim C2: the aggregation returns extra zero-value stacks -/

/-- Claim C2 fails on the code: getStackStatuses preallocates newStacks as a
slice of length len(stacks) holding zero-value stacks and then appends the
populated ones, so one input stack yields an output of two elements whose
first is the zero-value stack, which is not an input stack.  The populated
input stack does still appear (it is never omitted). -/
theorem getStackStatuses_extra_zero_stacks :
    getStackStatuses emptyBackend [stackA] = Except.ok [Stack.zero, stackA] ∧
    Stack.zero ≠ stackA := by
  constructor
  · rfl
  · decide

/-! ### Claim C7: stage-identifying conversion errors -/

/-- Counterexample to claim C7 as stated: a substitution failure with the
underlying error boom makes the conversion return exactly that error,
unwrapped, carrying no stage identifier — unlike the three conversion
stages, which prepend a stage message (see the amended theorem). -/
theorem substitution_error_unwrapped :
    convertToSwarmStackSpec (fun _ => Except.error "boom") (fun n => n)
      (fun _ _ _ => Except.ok []) (fun _ _ => Except.ok []) (fun _ _ => Except.ok [])
      (fun _ _ _ => ([], none)) emptyBackend demoSpec =
      (SwarmStackSpec.zero, some "boom") := rfl

/-- Claim C7, amended: if any conversion stage fails — substitution, service
conversion, config conversion, or secret conversion — the whole conversion
aborts, no later stage output is assembled (the result does not depend on
the later stage functions), and the zero-value spec is returned; the service,
config and secret conversion errors are wrapped with a stage-identifying
message, while a substitution error is returned as-is, unwrapped. -/
theorem convert_stage_errors
    (doSub : StackSpec → Except String StackSpec)
    (nns : String → String)
    (sv sv2 : String → StackSpec → SwarmResourceBackend → Except String (List String))
    (cf cf2 : String → List String → Except String (List String))
    (se se2 : String → List String → Except String (List String))
    (nw nw2 : String → List String → List String → (List String × Option String))
    (b : SwarmResourceBackend) (spec : StackSpec) (e : String) :
    (doSub spec = Except.error e →
        convertToSwarmStackSpec doSub nns sv cf se nw b spec = (SwarmStackSpec.zero, some e) ∧
        convertToSwarmStackSpec doSub nns sv cf se nw b spec =
          convertToSwarmStackSpec doSub nns sv2 cf2 se2 nw2 b spec) ∧
    (∀ ss0, doSub spec = Except.ok ss0 →
        sv (nns spec.Metadata.Name) ss0 b = Except.error e →
        convertToSwarmStackSpec doSub nns sv cf se nw b spec =
          (SwarmStackSpec.zero, some ("failed to convert services : " ++ e)) ∧
        convertToSwarmStackSpec doSub nns sv cf se nw b spec =
          convertToSwarmStackSpec doSub nns sv cf2 se2 nw2 b spec) ∧
    (∀ ss0 svs, doSub spec = Except.ok ss0 →
        sv (nns spec.Metadata.Name) ss0 b = Except.ok svs →
        cf (nns spec.Metadata.Name) ss0.Configs = Except.error e →
        convertToSwarmStackSpec doSub nns sv cf se nw b spec =
          (SwarmStackSpec.zero, some ("failed to convert configs: " ++ e)) ∧
        convertToSwarmStackSpec doSub nns sv cf se nw b spec =
          convertToSwarmStackSpec doSub nns sv cf se2 nw2 b spec) ∧
    (∀ ss0 svs cfs, doSub spec = Except.ok ss0 →
        sv (nns spec.Metadata.Name) ss0 b = Except.ok svs →
        cf (nns spec.Metadata.Name) ss0.Configs = Except.ok cfs →
        se (nns spec.Metadata.Name) ss0.Secrets = Except.error e →
        convertToSwarmStackSpec doSub nns sv cf se nw b spec =
          (SwarmStackSpec.zero, some ("failed to convert secrets: " ++ e)) ∧
        convertToSwarmStackSpec doSub nns sv cf se nw b spec =
          convertToSwarmStackSpec doSub nns sv cf se nw2 b spec) := by
  refine ⟨?_, ?_, ?_, ?_⟩
  · intro h
    constructor <;> simp only [convertToSwarmStackSpec, h]
  · intro ss0 h hsv
    constructor <;> simp only [convertToSwarmStackSpec, h, hsv]
  · intro ss0 svs h hsv hcf
    constructor <;> simp only [convertToSwarmStackSpec, h, hsv, hcf]
  · intro ss0 svs cfs h hsv hcf hse
    constructor <;> simp only [convertToSwarmStackSpec, h, hsv, hcf, hse]

/-- Witness for the amended claim C7 at the service-conversion stage: the
failing stage yields the zero spec with the stage-wrapped error, and the
result is unchanged when every later stage function is replaced. -/
theorem convert_stage_errors_witness :
    (convertToSwarmStackSpec Except.ok (fun n => n) (fun _ _ _ => Except.error "bad")
        (fun _ _ => Except.ok []) (fun _ _ => Except.ok []) (fun _ _ _ => ([], none))
        emptyBackend demoSpec =
      (SwarmStackSpec.zero, some ("failed to convert services : " ++ "bad"))) ∧
    (convertToSwarmStackSpec Except.ok (fun n => n) (fun _ _ _ => Except.error "bad")
        (fun _ _ => Except.ok []) (fun _ _ => Except.ok []) (fun _ _ _ => ([], none))
        emptyBackend demoSpec =
      convertToSwarmStackSpec Except.ok (fun n => n) (fun _ _ _ => Except.error "bad")
        (fun _ _ => Except.ok ["junk"]) (fun _ _ => Except.ok ["junk"])
        (fun _ _ _ => (["junk"], some "neterr")) emptyBackend demoSpec) :=
  (convert_stage_errors Except.ok (fun n => n) (fun _ _ _ => Except.error "bad")
      (fun _ _ _ => Except.error "bad") (fun _ _ => Except.ok [])
      (fun _ _ => Except.ok ["junk"]) (fun _ _ => Except.ok [])
      (fun _ _ => Except.ok ["junk"]) (fun _ _ _ => ([], none))
      (fun _ _ _ => (["junk"], some "neterr")) emptyBackend demoSpec "bad").2.1
    demoSpec rfl rfl

/-! ### Claim C9: conversion is deterministic in its inputs -/

/-- Claim C9: converting the same StackSpec twice under the same substitution
context, the same stage functions and the same orchestrator resource backend
yields identical orchestrator-native stack specs — any two successful
results of the same conversion agree. -/
theorem convert_idempotent
    (doSub : StackSpec → Except String StackSpec) (nns : String → String)
    (sv : String → StackSpec → SwarmResourceBackend → Except String (List String))
    (cf : String → List String → Except String (List String))
    (se : String → List String → Except String (List String))
    (nw : String → List String → List String → (List String × Option String))
    (b : SwarmResourceBackend) (spec : StackSpec) (out1 out2 : SwarmStackSpec)
    (h1 : convertToSwarmStackSpec doSub nns sv cf se nw b spec = (out1, none))
    (h2 : convertToSwarmStackSpec doSub nns sv cf se nw b spec = (out2, none)) :
    out1 = out2 := by
  have h := h1.symm.trans h2
  exact (Prod.ext_iff.mp h).1

/-- Witness for claim C9: two conversions of the demo spec with fixed stage
functions succeed with the same literal output, equal by the theorem. -/
theorem convert_idempotent_witness :
    (convertToSwarmStackSpec Except.ok (fun n => n) (fun _ _ _ => Except.ok ["s"])
        (fun _ _ => Except.ok []) (fun _ _ => Except.ok []) (fun _ _ _ => (["net"], none))
        emptyBackend demoSpec = (⟨⟨"demo", []⟩, ["s"], [], [], ["net"]⟩, none)) ∧
    (⟨⟨"demo", []⟩, ["s"], [], [], ["net"]⟩ : SwarmStackSpec) =
      ⟨⟨"demo", []⟩, ["s"], [], [], ["net"]⟩ :=
  ⟨rfl, convert_idempotent Except.ok (fun n => n) (fun _ _ _ => Except.ok ["s"])
      (fun _ _ => Except.ok []) (fun _ _ => Except.ok []) (fun _ _ _ => (["net"], none))
      emptyBackend demoSpec _ _ rfl rfl⟩
